import Mathlib

/-!
Verification of the face-authentication core (`src/backend/face_service.py` and
`src/backend/liveness.py`): the embedding codec, the signature matcher, the
quality gate and the liveness state machine, shallowly embedded in Lean.

Modelling conventions:
* Python floats are modelled as real numbers; a stored float32 embedding's raw
  32-bit pattern is modelled as a natural number below `2 ^ 32` where the claim
  is about bytes rather than arithmetic.
* A call into a public operation either returns a value or lets a library
  exception escape; `PyResult` captures the two outcomes.
* External models (the dlib face detector and landmark predictor, the
  face_recognition library) are abstracted by their outputs: a liveness `Frame`
  carries the eye landmarks of the largest detected face (or none when no face
  is found), and an `ImageModel` carries the detector's bounding boxes and the
  extractor's encodings for that image.
-/

namespace FaceAuth

/-- Outcome of a Python operation at a component boundary: a returned value, or
an uncaught library exception (`raised`) propagating to the caller. -/
inductive PyResult (α : Type) where
  | ok : α → PyResult α
  | raised : String → PyResult α
deriving DecidableEq

/-- `DISTANCE_THRESHOLD = 0.5` in `face_service.py` ("Lower = stricter matching"). -/
noncomputable def DISTANCE_THRESHOLD : ℝ := 1 / 2

/-- Euclidean norm of the elementwise difference of two equal-length vectors:
`np.linalg.norm(embedding1 - embedding2)` for same-shape arrays. -/
noncomputable def euclid (a b : List ℝ) : ℝ :=
  Real.sqrt ((List.zipWith (fun x y => (x - y) ^ 2) a b).sum)

/-- `FaceService.calculate_distance`.  `embedding1 - embedding2` is NumPy
elementwise subtraction: on same-length 1-D arrays it subtracts pointwise; when
one operand has length 1 it broadcasts that single element over the other; on
any other length mismatch NumPy raises a `ValueError`, which this method does
not catch. -/
noncomputable def calculate_distance (embedding1 embedding2 : List ℝ) : PyResult ℝ :=
  if embedding1.length = embedding2.length then
    .ok (euclid embedding1 embedding2)
  else if embedding1.length = 1 then
    .ok (euclid (List.replicate embedding2.length embedding1.headI) embedding2)
  else if embedding2.length = 1 then
    .ok (euclid embedding1 (List.replicate embedding1.length embedding2.headI))
  else
    .raised "ValueError"

/-- `FaceService.calculate_similarity`: `max(0, 1.0 - distance)`; an exception
from `calculate_distance` propagates through it uncaught. -/
noncomputable def calculate_similarity (embedding1 embedding2 : List ℝ) : PyResult ℝ :=
  match calculate_distance embedding1 embedding2 with
  | .raised e => .raised e
  | .ok d => .ok (max 0 (1 - d))

/-- A stored signature record `(embedding_id, user_id, embedding)` as passed to
`find_match`. -/
abbrev Candidate : Type := ℕ × ℕ × List ℝ

/-- The scan loop of `FaceService.find_match`: `best_match` starts as `None`
with `best_distance = inf`, and each candidate strictly closer than the best so
far replaces it (`if distance < best_distance`).  `best_match = None` holds
exactly while `best_distance` is infinite, so the pair is modelled as an
`Option` of `(embedding_id, user_id, best_distance)`.  An exception raised by
`calculate_distance` on some candidate aborts the loop and propagates. -/
noncomputable def find_match_loop (query : List ℝ) :
    List Candidate → Option (ℕ × ℕ × ℝ) → PyResult (Option (ℕ × ℕ × ℝ))
  | [], best => .ok best
  | (emb_id, user_id, stored) :: rest, best =>
    match calculate_distance query stored with
    | .raised e => .raised e
    | .ok d =>
      match best with
      | none => find_match_loop query rest (some (emb_id, user_id, d))
      | some (bi, bu, bd) =>
        if d < bd then find_match_loop query rest (some (emb_id, user_id, d))
        else find_match_loop query rest (some (bi, bu, bd))

/-- `FaceService.find_match`: after the scan, the best match is returned as
`(embedding_id, user_id, max(0, 1.0 - distance))` only when one exists
(`best_match` truthy) and `best_distance <= DISTANCE_THRESHOLD`; otherwise the
no-match sentinel `None`. -/
noncomputable def find_match (query : List ℝ) (stored_embeddings : List Candidate) :
    PyResult (Option (ℕ × ℕ × ℝ)) :=
  match find_match_loop query stored_embeddings none with
  | .raised e => .raised e
  | .ok none => .ok none
  | .ok (some (emb_id, user_id, d)) =>
    if d ≤ DISTANCE_THRESHOLD then .ok (some (emb_id, user_id, max 0 (1 - d)))
    else .ok none

/-- The scan of `find_match` with the distance calls already evaluated: under
the dimension-match precondition `find_match_loop` raises no exception and
computes exactly this pure fold (proved in `find_match_loop_eq_pure`). -/
noncomputable def pure_scan (query : List ℝ) :
    List Candidate → Option (ℕ × ℕ × ℝ) → Option (ℕ × ℕ × ℝ)
  | [], best => best
  | (emb_id, user_id, stored) :: rest, best =>
    let d := euclid query stored
    match best with
    | none => pure_scan query rest (some (emb_id, user_id, d))
    | some (bi, bu, bd) =>
      if d < bd then pure_scan query rest (some (emb_id, user_id, d))
      else pure_scan query rest (some (bi, bu, bd))

/-- `FaceService.embedding_to_bytes` = `ndarray.tobytes()` on a float32 array:
each element's 32-bit pattern (modelled as a `ℕ` below `2 ^ 32`) is laid out as
four little-endian bytes. -/
def embedding_to_bytes (embedding : List ℕ) : List ℕ :=
  (embedding.map (fun w => [w % 256, w / 256 % 256, w / 256 ^ 2 % 256, w / 256 ^ 3 % 256])).flatten

/-- `FaceService.bytes_to_embedding` = `np.frombuffer(data, dtype=np.float32)`:
regroups the bytes four at a time, little-endian; `none` models the
`ValueError` NumPy raises when the byte length is not a multiple of the
4-byte element width. -/
def bytes_to_embedding : List ℕ → Option (List ℕ)
  | [] => some []
  | b0 :: b1 :: b2 :: b3 :: rest =>
    (bytes_to_embedding rest).map (fun ws => (b0 + 2 ^ 8 * b1 + 2 ^ 16 * b2 + 2 ^ 24 * b3) :: ws)
  | _ => none

/-- What `validate_face_quality` observes of its image argument through the two
external calls: `face_recognition.face_locations(image)` returns bounding boxes
as `(top, right, bottom, left)` tuples, and `face_recognition.face_encodings(image)`
returns the extracted embeddings. -/
structure ImageModel where
  face_locations : List (ℤ × ℤ × ℤ × ℤ)
  face_encodings : List (List ℝ)

/-- `FaceService.validate_face_quality`.  First component: the returned
`(is_valid, message)` pair.  Second component: whether
`face_recognition.face_encodings` (the embedding extractor) was invoked on this
path — it is called only after the no-face and face-size checks both pass. -/
def validate_face_quality (image : ImageModel) : (Bool × String) × Bool :=
  match image.face_locations with
  | [] => ((false, "No face detected in the image"), false)
  | (top, right, bottom, left) :: _ =>
    let face_width := right - left
    let face_height := bottom - top
    if face_width < 50 ∨ face_height < 50 then
      ((false, "Face is too small. Please move closer to the camera"), false)
    else
      match image.face_encodings with
      | [] => ((false, "Could not process face features"), true)
      | _ :: _ => ((true, "Face detected successfully"), true)

/-- `LivenessDetector.EAR_THRESHOLD = 0.25`. -/
noncomputable def EAR_THRESHOLD : ℝ := 1 / 4

/-- `LivenessDetector.CONSECUTIVE_FRAMES = 2`. -/
def CONSECUTIVE_FRAMES : ℕ := 2

/-- `scipy.spatial.distance.euclidean` on 2-D landmark points. -/
noncomputable def euclidean (p q : ℝ × ℝ) : ℝ :=
  Real.sqrt ((p.1 - q.1) ^ 2 + (p.2 - q.2) ^ 2)

/-- `LivenessDetector._eye_aspect_ratio` on the six landmark points of one eye:
`EAR = (‖p2−p6‖ + ‖p3−p5‖) / (2·‖p1−p4‖)` (0-indexed: points 1,5 / 2,4 / 0,3),
and `0` when the horizontal distance `C` is not positive
(`(A + B) / (2.0 * C) if C > 0 else 0`). -/
noncomputable def eye_aspect_ratio (eye_points : Fin 6 → ℝ × ℝ) : ℝ :=
  let A := euclidean (eye_points 1) (eye_points 5)
  let B := euclidean (eye_points 2) (eye_points 4)
  let C := euclidean (eye_points 0) (eye_points 3)
  if C > 0 then (A + B) / (2 * C) else 0

/-- A liveness frame, abstracted by what the external dlib models report on it:
`none` when the detector finds no face, otherwise the six left-eye and six
right-eye landmark points of the largest detected face. -/
def Frame : Type := Option ((Fin 6 → ℝ × ℝ) × (Fin 6 → ℝ × ℝ))

/-- `LivenessDetector.detect_blink`: `(False, 0.3)` when the predictor is not
loaded, `(False, 0.0)` when no face is detected, otherwise
`(avg_ear < EAR_THRESHOLD, avg_ear)` where `avg_ear` averages the two eyes'
aspect ratios. -/
noncomputable def detect_blink (predictor_loaded : Bool) (frame : Frame) : Bool × ℝ :=
  if predictor_loaded = false then (false, 3 / 10)
  else
    match frame with
    | none => (false, 0)
    | some (left_eye, right_eye) =>
      let left_ear := eye_aspect_ratio left_eye
      let right_ear := eye_aspect_ratio right_eye
      let avg_ear := (left_ear + right_ear) / 2
      (decide (avg_ear < EAR_THRESHOLD), avg_ear)

/-- The per-frame loop of `LivenessDetector.check_liveness`, with the two local
counters `was_open` and `consecutive_closed` threaded explicitly; returns the
final `blink_detected`.  An "eyes open" frame (`not is_blinking and ear > 0`)
sets `was_open` and resets the consecutive count; a blinking frame after an
open one increments it, and reaching `CONSECUTIVE_FRAMES` confirms the blink
and breaks out of the loop; any other frame changes nothing. -/
noncomputable def check_liveness_loop (predictor_loaded : Bool) :
    List Frame → Bool → ℕ → Bool
  | [], _, _ => false
  | frame :: rest, was_open, consecutive_closed =>
    let r := detect_blink predictor_loaded frame
    if r.1 = false ∧ r.2 > 0 then
      check_liveness_loop predictor_loaded rest true 0
    else if r.1 = true ∧ was_open = true then
      if consecutive_closed + 1 ≥ CONSECUTIVE_FRAMES then true
      else check_liveness_loop predictor_loaded rest was_open (consecutive_closed + 1)
    else
      check_liveness_loop predictor_loaded rest was_open consecutive_closed

/-- `LivenessDetector.check_liveness`: the degraded always-pass when the
predictor is not loaded comes first, then the minimum-frame-count check, then
the blink scan. -/
noncomputable def check_liveness (predictor_loaded : Bool) (frames : List Frame) :
    Bool × String :=
  if predictor_loaded = false then
    (true, "Liveness check skipped (predictor not loaded)")
  else if frames.length < 5 then
    (false, "Not enough frames for liveness check")
  else if check_liveness_loop predictor_loaded frames false 0 then
    (true, "Liveness verified (blink detected)")
  else
    (false, "Liveness check failed (no blink detected)")

/-- Six concrete eye-landmark points, listed in the order the dlib landmark
array presents them. -/
noncomputable def mkEye (p0 p1 p2 p3 p4 p5 : ℝ × ℝ) : Fin 6 → ℝ × ℝ
  | 0 => p0
  | 1 => p1
  | 2 => p2
  | 3 => p3
  | 4 => p4
  | 5 => p5

/-- An eye with vertical landmark distances `3/10` and horizontal distance `1`,
so its aspect ratio is `3/10` — above the blink threshold `1/4`. -/
noncomputable def open_eye : Fin 6 → ℝ × ℝ :=
  mkEye (0, 0) (0, 0) (0, 0) (1, 0) (0, 3 / 10) (0, 3 / 10)

/-- An eye with both vertical landmark distances `0` (lids shut) and horizontal
distance `1`, so its aspect ratio is `0` — below the blink threshold. -/
noncomputable def closed_eye : Fin 6 → ℝ × ℝ :=
  mkEye (0, 0) (0, 0) (0, 0) (1, 0) (0, 0) (0, 0)

/-- A frame whose largest detected face has both eyes open (`avg_ear = 3/10`). -/
noncomputable def open_frame : Frame := some (open_eye, open_eye)

/-- A frame whose largest detected face has both eyes closed (`avg_ear = 0`). -/
noncomputable def closed_frame : Frame := some (closed_eye, closed_eye)

theorem euclid_nonneg (a b : List ℝ) : 0 ≤ euclid a b :=
  Real.sqrt_nonneg _

theorem euclid_single (a b : ℝ) : euclid [a] [b] = |a - b| := by
  simp only [euclid, List.zipWith, List.sum_cons, List.sum_nil, add_zero]
  exact Real.sqrt_sq_eq_abs _

theorem euclid_single_nonneg (b : ℝ) (hb : 0 ≤ b) : euclid [0] [b] = b := by
  rw [euclid_single, zero_sub, abs_neg, abs_of_nonneg hb]

theorem euclid_single_neg (b : ℝ) (hb : 0 ≤ b) : euclid [0] [-b] = b := by
  rw [euclid_single, show (0 : ℝ) - -b = b by ring, abs_of_nonneg hb]

theorem find_match_loop_eq_pure (query : List ℝ) (cands : List Candidate) :
    ∀ b : Option (ℕ × ℕ × ℝ), (∀ c ∈ cands, c.2.2.length = query.length) →
      find_match_loop query cands b = .ok (pure_scan query cands b) := by
  induction cands with
  | nil => intro b _; rfl
  | cons c rest ih =>
    obtain ⟨i, u, s⟩ := c
    intro b h
    have hs : s.length = query.length := h (i, u, s) (List.mem_cons_self _ _)
    have hrest : ∀ c ∈ rest, c.2.2.length = query.length := fun c hc =>
      h c (List.mem_cons_of_mem _ hc)
    simp only [find_match_loop, pure_scan, calculate_distance, if_pos hs.symm]
    cases b with
    | none => exact ih _ hrest
    | some best =>
      obtain ⟨bi, bu, bd⟩ := best
      by_cases hlt : euclid query s < bd
      · simp only [if_pos hlt]; exact ih _ hrest
      · simp only [if_neg hlt]; exact ih _ hrest

theorem pure_scan_isSome (query : List ℝ) (cands : List Candidate) :
    ∀ s : ℕ × ℕ × ℝ, (pure_scan query cands (some s)).isSome := by
  induction cands with
  | nil => intro s; rfl
  | cons c rest ih =>
    obtain ⟨i, u, v⟩ := c
    intro s
    obtain ⟨bi, bu, bd⟩ := s
    simp only [pure_scan]
    by_cases hlt : euclid query v < bd
    · simp only [if_pos hlt]; exact ih _
    · simp only [if_neg hlt]; exact ih _

theorem pure_scan_none_iff (query : List ℝ) (cands : List Candidate) :
    pure_scan query cands none = none ↔ cands = [] := by
  cases cands with
  | nil => simp [pure_scan]
  | cons c rest =>
    obtain ⟨i, u, v⟩ := c
    simp only [pure_scan]
    constructor
    · intro hnone
      have := pure_scan_isSome query rest (i, u, euclid query v)
      rw [hnone] at this
      exact absurd this (by simp)
    · intro h; exact absurd h (by simp)

theorem pure_scan_mem (query : List ℝ) (cands : List Candidate) :
    ∀ (b : Option (ℕ × ℕ × ℝ)) (t : ℕ × ℕ × ℝ), pure_scan query cands b = some t →
      b = some t ∨ ∃ c ∈ cands, t = (c.1, c.2.1, euclid query c.2.2) := by
  induction cands with
  | nil => intro b t h; exact Or.inl h
  | cons c rest ih =>
    obtain ⟨i, u, v⟩ := c
    intro b t h
    cases b with
    | none =>
      simp only [pure_scan] at h
      rcases ih _ _ h with h1 | h2
      · exact Or.inr ⟨(i, u, v), List.mem_cons_self _ _, (Option.some_injective _ h1).symm⟩
      · obtain ⟨c, hc, ht⟩ := h2
        exact Or.inr ⟨c, List.mem_cons_of_mem _ hc, ht⟩
    | some best =>
      obtain ⟨bi, bu, bd⟩ := best
      simp only [pure_scan] at h
      by_cases hlt : euclid query v < bd
      · rw [if_pos hlt] at h
        rcases ih _ _ h with h1 | h2
        · exact Or.inr ⟨(i, u, v), List.mem_cons_self _ _, (Option.some_injective _ h1).symm⟩
        · obtain ⟨c, hc, ht⟩ := h2
          exact Or.inr ⟨c, List.mem_cons_of_mem _ hc, ht⟩
      · rw [if_neg hlt] at h
        rcases ih _ _ h with h1 | h2
        · exact Or.inl h1
        · obtain ⟨c, hc, ht⟩ := h2
          exact Or.inr ⟨c, List.mem_cons_of_mem _ hc, ht⟩

theorem pure_scan_le (query : List ℝ) (cands : List Candidate) :
    ∀ (b : Option (ℕ × ℕ × ℝ)) (t : ℕ × ℕ × ℝ), pure_scan query cands b = some t →
      (∀ c ∈ cands, t.2.2 ≤ euclid query c.2.2) ∧
      (∀ s : ℕ × ℕ × ℝ, b = some s → t.2.2 ≤ s.2.2) := by
  induction cands with
  | nil =>
    intro b t h
    refine ⟨fun c hc => absurd hc (List.not_mem_nil _), fun s hs => ?_⟩
    rw [hs] at h
    rw [show s = t from Option.some_injective _ h]
  | cons c rest ih =>
    obtain ⟨i, u, v⟩ := c
    intro b t h
    cases b with
    | none =>
      simp only [pure_scan] at h
      obtain ⟨hrest, hseed⟩ := ih _ _ h
      have hv : t.2.2 ≤ euclid query v := hseed _ rfl
      refine ⟨fun c hc => ?_, fun s hs => by cases hs⟩
      rcases List.mem_cons.mp hc with hc | hc
      · rw [hc]; exact hv
      · exact hrest c hc
    | some best =>
      obtain ⟨bi, bu, bd⟩ := best
      simp only [pure_scan] at h
      by_cases hlt : euclid query v < bd
      · rw [if_pos hlt] at h
        obtain ⟨hrest, hseed⟩ := ih _ _ h
        have hv : t.2.2 ≤ euclid query v := hseed _ rfl
        refine ⟨fun c hc => ?_, fun s hs => ?_⟩
        · rcases List.mem_cons.mp hc with hc | hc
          · rw [hc]; exact hv
          · exact hrest c hc
        · obtain rfl : (bi, bu, bd) = s := Option.some_injective _ hs
          exact le_of_lt (lt_of_le_of_lt hv hlt)
      · rw [if_neg hlt] at h
        obtain ⟨hrest, hseed⟩ := ih _ _ h
        have hb : t.2.2 ≤ bd := hseed _ rfl
        refine ⟨fun c hc => ?_, fun s hs => ?_⟩
        · rcases List.mem_cons.mp hc with hc | hc
          · rw [hc]; exact le_trans hb (le_of_not_lt hlt)
          · exact hrest c hc
        · obtain rfl : (bi, bu, bd) = s := Option.some_injective _ hs
          exact hb

theorem pure_scan_append (query : List ℝ) (l1 l2 : List Candidate) :
    ∀ b : Option (ℕ × ℕ × ℝ),
      pure_scan query (l1 ++ l2) b = pure_scan query l2 (pure_scan query l1 b) := by
  induction l1 with
  | nil => intro b; rfl
  | cons c rest ih =>
    obtain ⟨i, u, v⟩ := c
    intro b
    cases b with
    | none => simp only [List.cons_append, pure_scan]; exact ih _
    | some best =>
      obtain ⟨bi, bu, bd⟩ := best
      simp only [List.cons_append, pure_scan]
      by_cases hlt : euclid query v < bd
      · simp only [if_pos hlt]; exact ih _
      · simp only [if_neg hlt]; exact ih _

theorem pure_scan_keep (query : List ℝ) (cands : List Candidate) :
    ∀ bi bu : ℕ, ∀ bd : ℝ, (∀ c ∈ cands, bd ≤ euclid query c.2.2) →
      pure_scan query cands (some (bi, bu, bd)) = some (bi, bu, bd) := by
  induction cands with
  | nil => intro bi bu bd _; rfl
  | cons c rest ih =>
    obtain ⟨i, u, v⟩ := c
    intro bi bu bd h
    have hv : bd ≤ euclid query v := h (i, u, v) (List.mem_cons_self _ _)
    simp only [pure_scan, if_neg (not_lt.mpr hv)]
    exact ih bi bu bd (fun c hc => h c (List.mem_cons_of_mem _ hc))

/-- C1: for every query vector and candidate list of matching dimensionality,
`find_match` returns a match exactly when some candidate's distance (hence the
minimum distance) is at most the threshold `0.5`, boundary inclusive; and when
every candidate's distance strictly exceeds the threshold — even for a
non-empty list — it returns the no-match sentinel `None`, not an error. -/
theorem find_match_threshold (query : List ℝ) (cands : List Candidate)
    (hdim : ∀ c ∈ cands, c.2.2.length = query.length) :
    ((∃ r, find_match query cands = .ok (some r)) ↔
      ∃ c ∈ cands, euclid query c.2.2 ≤ DISTANCE_THRESHOLD) ∧
    ((∀ c ∈ cands, DISTANCE_THRESHOLD < euclid query c.2.2) →
      find_match query cands = .ok none) := by
  have hloop := find_match_loop_eq_pure query cands none hdim
  cases hscan : pure_scan query cands none with
  | none =>
    have hnil : cands = [] := (pure_scan_none_iff query cands).mp hscan
    subst hnil
    constructor
    · constructor
      · rintro ⟨r, hr⟩; cases hr
      · rintro ⟨c, hc, -⟩; exact absurd hc (List.not_mem_nil _)
    · intro _; rfl
  | some best =>
    obtain ⟨i, u, d⟩ := best
    rw [hscan] at hloop
    have hmem := pure_scan_mem query cands none (i, u, d) hscan
    have hle := (pure_scan_le query cands none (i, u, d) hscan).1
    obtain ⟨c₀, hc₀, hc₀d⟩ := hmem.resolve_left (by simp)
    have hd : d = euclid query c₀.2.2 := congrArg (·.2.2) hc₀d
    constructor
    · constructor
      · rintro ⟨r, hr⟩
        simp only [find_match, hloop] at hr
        by_cases hthr : d ≤ DISTANCE_THRESHOLD
        · exact ⟨c₀, hc₀, hd ▸ hthr⟩
        · rw [if_neg hthr] at hr; cases hr
      · rintro ⟨c, hc, hcthr⟩
        have : d ≤ DISTANCE_THRESHOLD := le_trans (hle c hc) hcthr
        refine ⟨(i, u, max 0 (1 - d)), ?_⟩
        simp only [find_match, hloop, if_pos this]
    · intro hall
      have : DISTANCE_THRESHOLD < d := hd ▸ hall c₀ hc₀
      simp only [find_match, hloop, if_neg (not_le.mpr this)]

/-- C1 witness: a single candidate at distance exactly `0.5` (the inclusive
boundary) is returned as a match. -/
theorem find_match_threshold_witness :
    ∃ r, find_match [(0 : ℝ)] [(1, 10, [1 / 2])] = .ok (some r) :=
  (find_match_threshold [(0 : ℝ)] [(1, 10, [1 / 2])]
    (by intro c hc; simp only [List.mem_singleton] at hc; subst hc; rfl)).1.mpr
    ⟨(1, 10, [1 / 2]), List.mem_singleton.mpr rfl, by
      show euclid [(0 : ℝ)] [1 / 2] ≤ DISTANCE_THRESHOLD
      rw [euclid_single_nonneg _ (by norm_num)]
      norm_num [DISTANCE_THRESHOLD]⟩

/-- C7: when the candidate list splits as `pre ++ c :: post` with every
candidate in `pre` strictly farther than `c` and every candidate in `post` no
closer than `c` (so `c` is the first candidate attaining the minimum distance,
ties included), `find_match` returns `c` — the scan updates only on strictly
smaller distances, so the earliest minimum wins and the result is deterministic
for a fixed ordering. -/
theorem find_match_first_of_ties (query : List ℝ) (pre post : List Candidate)
    (c : Candidate)
    (hdim : ∀ x ∈ pre ++ c :: post, x.2.2.length = query.length)
    (hpre : ∀ x ∈ pre, euclid query c.2.2 < euclid query x.2.2)
    (hpost : ∀ x ∈ post, euclid query c.2.2 ≤ euclid query x.2.2)
    (hthr : euclid query c.2.2 ≤ DISTANCE_THRESHOLD) :
    find_match query (pre ++ c :: post) =
      .ok (some (c.1, c.2.1, max 0 (1 - euclid query c.2.2))) := by
  obtain ⟨i, u, v⟩ := c
  have hloop := find_match_loop_eq_pure query (pre ++ (i, u, v) :: post) none hdim
  have hscan : pure_scan query (pre ++ (i, u, v) :: post) none =
      some (i, u, euclid query v) := by
    rw [pure_scan_append]
    cases hpres : pure_scan query pre none with
    | none =>
      simp only [pure_scan]
      exact pure_scan_keep query post i u _ (fun x hx => hpost x hx)
    | some best =>
      obtain ⟨bi, bu, bd⟩ := best
      obtain ⟨x, hx, hxd⟩ :=
        (pure_scan_mem query pre none (bi, bu, bd) hpres).resolve_left (by simp)
      have hbd : euclid query v < bd := by
        have := hpre x hx
        have hbd' : bd = euclid query x.2.2 := congrArg (·.2.2) hxd
        rw [hbd']; exact this
      simp only [pure_scan, if_pos hbd]
      exact pure_scan_keep query post i u _ (fun x hx => hpost x hx)
  rw [hscan] at hloop
  simp only [find_match, hloop, if_pos hthr]

/-- C7 witness: with distances `0.4, 0.3, 0.3` the two candidates tied at the
minimum `0.3` resolve to the first one in list order, id `1` / owner `10`. -/
theorem find_match_first_of_ties_witness :
    find_match [(0 : ℝ)] [(5, 50, [2 / 5]), (1, 10, [3 / 10]), (2, 11, [-(3 / 10)])] =
      .ok (some (1, 10, 7 / 10)) := by
  have h := find_match_first_of_ties [(0 : ℝ)] [(5, 50, [2 / 5])]
    [(2, 11, [-(3 / 10)])] (1, 10, [3 / 10])
    (by intro x hx
        simp only [List.mem_append, List.mem_cons, List.mem_singleton,
          List.not_mem_nil, or_false] at hx
        rcases hx with rfl | rfl | rfl <;> rfl)
    (by intro x hx
        simp only [List.mem_singleton] at hx
        subst hx
        show euclid [(0 : ℝ)] [3 / 10] < euclid [(0 : ℝ)] [2 / 5]
        rw [euclid_single_nonneg _ (by norm_num), euclid_single_nonneg _ (by norm_num)]
        norm_num)
    (by intro x hx
        simp only [List.mem_singleton] at hx
        subst hx
        show euclid [(0 : ℝ)] [3 / 10] ≤ euclid [(0 : ℝ)] [-(3 / 10)]
        rw [euclid_single_nonneg _ (by norm_num), euclid_single_neg _ (by norm_num)])
    (by show euclid [(0 : ℝ)] [3 / 10] ≤ DISTANCE_THRESHOLD
        rw [euclid_single_nonneg _ (by norm_num)]
        norm_num [DISTANCE_THRESHOLD])
  rw [euclid_single_nonneg _ (by norm_num : (0 : ℝ) ≤ 3 / 10)] at h
  rw [show max (0 : ℝ) (1 - 3 / 10) = 7 / 10 by norm_num] at h
  exact h

/-- C8: on equal-dimensional vectors `calculate_similarity` returns exactly
`max 0 (1 − distance)`, that value lies in `[0, 1]`, and it is antitone in the
Euclidean distance: a pair at greater distance never gets greater similarity. -/
theorem calculate_similarity_spec (a b a' b' : List ℝ)
    (hab : a.length = b.length) (hab' : a'.length = b'.length) :
    calculate_similarity a b = .ok (max 0 (1 - euclid a b)) ∧
    0 ≤ max 0 (1 - euclid a b) ∧ max 0 (1 - euclid a b) ≤ 1 ∧
    (euclid a b ≤ euclid a' b' → ∀ s s' : ℝ, calculate_similarity a b = .ok s →
      calculate_similarity a' b' = .ok s' → s' ≤ s) := by
  refine ⟨?_, le_max_left _ _, ?_, ?_⟩
  · simp only [calculate_similarity, calculate_distance, if_pos hab]
  · exact max_le zero_le_one (by linarith [euclid_nonneg a b])
  · intro hle s s' hs hs'
    simp only [calculate_similarity, calculate_distance, if_pos hab,
      PyResult.ok.injEq] at hs
    simp only [calculate_similarity, calculate_distance, if_pos hab',
      PyResult.ok.injEq] at hs'
    subst hs
    subst hs'
    exact max_le_max le_rfl (by linarith)

/-- C8 witness: identical one-dimensional vectors get similarity `1`. -/
theorem calculate_similarity_spec_witness :
    calculate_similarity [(0 : ℝ)] [(0 : ℝ)] = .ok 1 := by
  have h := (calculate_similarity_spec [(0 : ℝ)] [0] [0] [1] rfl rfl).1
  rw [euclid_single_nonneg 0 le_rfl] at h
  rw [show max (0 : ℝ) (1 - 0) = 1 by norm_num] at h
  exact h

/-- C9 counterexample: comparing a 2-dimensional vector with a 3-dimensional
one does not produce a structured `DimensionMismatch` outcome — the raw NumPy
`ValueError` escapes `calculate_distance` uncaught, refuting the claim that
library-level failures are converted at this boundary. -/
theorem calculate_distance_mismatch_counterexample :
    ([(0 : ℝ), 0].length ≠ [(1 : ℝ), 2, 3].length) ∧
    calculate_distance [(0 : ℝ), 0] [1, 2, 3] = .raised "ValueError" := by
  constructor
  · simp
  · rfl

/-- C9 amended: whenever two vectors of different dimensionality (neither of
length 1, where NumPy broadcasting silently computes instead) are compared,
`calculate_distance` lets the raw `ValueError` propagate, and so do
`calculate_similarity` and `find_match` when such a candidate is scanned;
no structured `DimensionMismatch` outcome exists in the code. -/
theorem calculate_distance_mismatch_uncaught (e1 e2 : List ℝ)
    (hne : e1.length ≠ e2.length) (h1 : e1.length ≠ 1) (h2 : e2.length ≠ 1) :
    calculate_distance e1 e2 = .raised "ValueError" ∧
    calculate_similarity e1 e2 = .raised "ValueError" ∧
    ∀ (emb_id user_id : ℕ) (rest : List Candidate),
      find_match e1 ((emb_id, user_id, e2) :: rest) = .raised "ValueError" := by
  have hd : calculate_distance e1 e2 = .raised "ValueError" := by
    simp only [calculate_distance, if_neg hne, if_neg h1, if_neg h2]
  refine ⟨hd, ?_, ?_⟩
  · simp only [calculate_similarity, hd]
  · intro emb_id user_id rest
    simp only [find_match, find_match_loop, hd]

/-- C9 amended witness: the concrete 2-vs-3-dimensional comparison raises
through all three public operations. -/
theorem calculate_distance_mismatch_uncaught_witness :
    calculate_similarity [(0 : ℝ), 0] [1, 2, 3] = .raised "ValueError" ∧
    find_match [(0 : ℝ), 0] [(7, 8, [1, 2, 3])] = .raised "ValueError" := by
  have h := calculate_distance_mismatch_uncaught [(0 : ℝ), 0] [1, 2, 3]
    (by simp) (by simp) (by simp)
  exact ⟨h.2.1, h.2.2 7 8 []⟩

/-- C5: for every face vector (each element's 32-bit float pattern a natural
number below `2 ^ 32`), decoding the encoded bytes returns the vector exactly,
bit for bit: `bytes_to_embedding (embedding_to_bytes v) = some v`. -/
theorem bytes_roundtrip (v : List ℕ) (h : ∀ w ∈ v, w < 2 ^ 32) :
    bytes_to_embedding (embedding_to_bytes v) = some v := by
  induction v with
  | nil => rfl
  | cons w v ih =>
    have hw : w < 2 ^ 32 := h w (List.mem_cons_self _ _)
    have hv : ∀ x ∈ v, x < 2 ^ 32 := fun x hx => h x (List.mem_cons_of_mem _ hx)
    have henc : embedding_to_bytes (w :: v) =
        w % 256 :: w / 256 % 256 :: w / 256 ^ 2 % 256 :: w / 256 ^ 3 % 256 ::
          embedding_to_bytes v := by
      simp [embedding_to_bytes]
    rw [henc, bytes_to_embedding, ih hv, Option.map_some']
    have hrecon : w % 256 + 2 ^ 8 * (w / 256 % 256) + 2 ^ 16 * (w / 256 ^ 2 % 256) +
        2 ^ 24 * (w / 256 ^ 3 % 256) = w := by omega
    rw [hrecon]

/-- C5 witness: a concrete three-element vector (patterns `0`, `1` and the
all-ones word `4294967295`) round-trips exactly. -/
theorem bytes_roundtrip_witness :
    bytes_to_embedding (embedding_to_bytes [0, 1, 4294967295]) = some [0, 1, 4294967295] :=
  bytes_roundtrip [0, 1, 4294967295] (by decide)

/-- C6: `validate_face_quality` applies its checks in order with the first
failure winning: no detected face rejects with the no-face message before the
embedding extractor is invoked (second component `false`); a first bounding box
of width or height below 50 pixels rejects as too small, still without invoking
the extractor; only then is an empty encoding list reported as a feature
failure; and every path returns a flag paired with a human-readable message. -/
theorem validate_face_quality_order (image : ImageModel) :
    (image.face_locations = [] →
      validate_face_quality image = ((false, "No face detected in the image"), false)) ∧
    (∀ (top right bottom left : ℤ) (rest : List (ℤ × ℤ × ℤ × ℤ)),
      image.face_locations = (top, right, bottom, left) :: rest →
      (right - left < 50 ∨ bottom - top < 50) →
      validate_face_quality image =
        ((false, "Face is too small. Please move closer to the camera"), false)) ∧
    (∀ (top right bottom left : ℤ) (rest : List (ℤ × ℤ × ℤ × ℤ)),
      image.face_locations = (top, right, bottom, left) :: rest →
      ¬(right - left < 50 ∨ bottom - top < 50) →
      image.face_encodings = [] →
      validate_face_quality image = ((false, "Could not process face features"), true)) ∧
    (∀ (top right bottom left : ℤ) (rest : List (ℤ × ℤ × ℤ × ℤ)),
      image.face_locations = (top, right, bottom, left) :: rest →
      ¬(right - left < 50 ∨ bottom - top < 50) →
      image.face_encodings ≠ [] →
      validate_face_quality image = ((true, "Face detected successfully"), true)) := by
  refine ⟨?_, ?_, ?_, ?_⟩
  · intro hloc
    simp only [validate_face_quality, hloc]
  · intro top right bottom left rest hloc hsmall
    simp only [validate_face_quality, hloc, if_pos hsmall]
  · intro top right bottom left rest hloc hsmall henc
    simp only [validate_face_quality, hloc, if_neg hsmall, henc]
  · intro top right bottom left rest hloc hsmall henc
    simp only [validate_face_quality, hloc, if_neg hsmall]
    cases henclist : image.face_encodings with
    | nil => exact absurd henclist henc
    | cons e es => rfl

/-- C6 witness: the four paths at concrete images — no face; a 30×30 face;
a 60×60 face whose encoding extraction fails; a 60×60 face with an encoding. -/
theorem validate_face_quality_order_witness :
    validate_face_quality ⟨[], []⟩ = ((false, "No face detected in the image"), false) ∧
    validate_face_quality ⟨[(0, 30, 30, 0)], []⟩ =
      ((false, "Face is too small. Please move closer to the camera"), false) ∧
    validate_face_quality ⟨[(0, 60, 60, 0)], []⟩ =
      ((false, "Could not process face features"), true) ∧
    validate_face_quality ⟨[(0, 60, 60, 0)], [[0]]⟩ =
      ((true, "Face detected successfully"), true) :=
  ⟨(validate_face_quality_order ⟨[], []⟩).1 rfl,
   (validate_face_quality_order ⟨[(0, 30, 30, 0)], []⟩).2.1 0 30 30 0 [] rfl (by decide),
   (validate_face_quality_order ⟨[(0, 60, 60, 0)], []⟩).2.2.1 0 60 60 0 [] rfl
     (by decide) rfl,
   (validate_face_quality_order ⟨[(0, 60, 60, 0)], [[0]]⟩).2.2.2 0 60 60 0 [] rfl
     (by decide) (by simp)⟩

theorem euclidean_vert (y : ℝ) (hy : 0 ≤ y) : euclidean (0, 0) (0, y) = y := by
  unfold euclidean
  rw [show ((0 : ℝ) - 0) ^ 2 + ((0 : ℝ) - y) ^ 2 = y ^ 2 by ring]
  exact Real.sqrt_sq hy

theorem euclidean_horiz (x : ℝ) (hx : 0 ≤ x) : euclidean (0, 0) (x, 0) = x := by
  unfold euclidean
  rw [show ((0 : ℝ) - x) ^ 2 + ((0 : ℝ) - 0) ^ 2 = x ^ 2 by ring]
  exact Real.sqrt_sq hx

theorem eye_aspect_ratio_open_eye : eye_aspect_ratio open_eye = 3 / 10 := by
  simp only [eye_aspect_ratio]
  rw [show open_eye 1 = (0, 0) from rfl, show open_eye 5 = (0, 3 / 10) from rfl,
    show open_eye 2 = (0, 0) from rfl, show open_eye 4 = (0, 3 / 10) from rfl,
    show open_eye 0 = (0, 0) from rfl, show open_eye 3 = (1, 0) from rfl]
  rw [euclidean_vert _ (by norm_num), euclidean_horiz _ (by norm_num)]
  rw [if_pos (by norm_num : (0 : ℝ) < 1)]
  norm_num

theorem eye_aspect_ratio_closed_eye : eye_aspect_ratio closed_eye = 0 := by
  simp only [eye_aspect_ratio]
  rw [show closed_eye 1 = (0, 0) from rfl, show closed_eye 5 = (0, 0) from rfl,
    show closed_eye 2 = (0, 0) from rfl, show closed_eye 4 = (0, 0) from rfl,
    show closed_eye 0 = (0, 0) from rfl, show closed_eye 3 = (1, 0) from rfl]
  rw [euclidean_vert _ le_rfl, euclidean_horiz _ (by norm_num)]
  rw [if_pos (by norm_num : (0 : ℝ) < 1)]
  norm_num

theorem detect_blink_open_frame : detect_blink true open_frame = (false, 3 / 10) := by
  show detect_blink true (some (open_eye, open_eye)) = (false, 3 / 10)
  simp only [detect_blink, eye_aspect_ratio_open_eye]
  rw [if_neg (by simp : ¬(true = false))]
  rw [show ((3 : ℝ) / 10 + 3 / 10) / 2 = 3 / 10 by norm_num]
  rw [decide_eq_false (by norm_num [EAR_THRESHOLD] : ¬((3 : ℝ) / 10 < EAR_THRESHOLD))]

theorem detect_blink_closed_frame : detect_blink true closed_frame = (true, 0) := by
  show detect_blink true (some (closed_eye, closed_eye)) = (true, 0)
  simp only [detect_blink, eye_aspect_ratio_closed_eye]
  rw [if_neg (by simp : ¬(true = false))]
  rw [show ((0 : ℝ) + 0) / 2 = 0 by norm_num]
  rw [decide_eq_true (by norm_num [EAR_THRESHOLD] : (0 : ℝ) < EAR_THRESHOLD)]

theorem check_liveness_loop_append (pl : Bool) (pre l : List Frame) :
    ∀ (w : Bool) (c : ℕ), check_liveness_loop pl (pre ++ l) w c = true ∨
      ∃ w' c', check_liveness_loop pl (pre ++ l) w c = check_liveness_loop pl l w' c' := by
  induction pre with
  | nil => intro w c; exact Or.inr ⟨w, c, rfl⟩
  | cons f pre ih =>
    intro w c
    simp only [List.cons_append, check_liveness_loop]
    by_cases h1 : (detect_blink pl f).1 = false ∧ (detect_blink pl f).2 > 0
    · rw [if_pos h1]; exact ih true 0
    · rw [if_neg h1]
      by_cases h2 : (detect_blink pl f).1 = true ∧ w = true
      · rw [if_pos h2]
        by_cases h3 : c + 1 ≥ CONSECUTIVE_FRAMES
        · rw [if_pos h3]; exact Or.inl rfl
        · rw [if_neg h3]; exact ih w (c + 1)
      · rw [if_neg h2]; exact ih w c

/-- C2: with the predictor loaded, whatever frames came before, an eyes-open
frame (`not is_blinking and ear > 0`) followed immediately by two blinking
frames confirms liveness — and the frames after those three are never
consulted (`rest` is arbitrary), modelling the `break` that stops the scan
early. -/
theorem check_liveness_blink_short_circuit (pre rest : List Frame) (o c1 c2 : Frame)
    (ho1 : (detect_blink true o).1 = false) (ho2 : (detect_blink true o).2 > 0)
    (hc1 : (detect_blink true c1).1 = true) (hc2 : (detect_blink true c2).1 = true)
    (hlen : 5 ≤ (pre ++ o :: c1 :: c2 :: rest).length) :
    check_liveness true (pre ++ o :: c1 :: c2 :: rest) =
      (true, "Liveness verified (blink detected)") := by
  have hloop : ∀ (w : Bool) (c : ℕ),
      check_liveness_loop true (o :: c1 :: c2 :: rest) w c = true := by
    intro w c
    simp only [check_liveness_loop]
    rw [if_pos ⟨ho1, ho2⟩]
    rw [if_neg (by rw [hc1]; simp)]
    rw [if_pos ⟨hc1, by trivial⟩]
    rw [if_neg (by norm_num [CONSECUTIVE_FRAMES] : ¬(0 + 1 ≥ CONSECUTIVE_FRAMES))]
    rw [if_neg (by rw [hc2]; simp)]
    rw [if_pos ⟨hc2, by trivial⟩]
    rw [if_pos (by norm_num [CONSECUTIVE_FRAMES] : 0 + 1 + 1 ≥ CONSECUTIVE_FRAMES)]
  unfold check_liveness
  rw [if_neg (by simp : ¬(true = false)), if_neg (not_lt.mpr hlen)]
  rcases check_liveness_loop_append true pre (o :: c1 :: c2 :: rest) false 0 with h | ⟨w', c', h⟩
  · rw [h, if_pos rfl]
  · rw [h, hloop w' c', if_pos rfl]

/-- C2 witness: the spec's 5-frame sequence open → closed → closed → open →
open yields the confirmed outcome. -/
theorem check_liveness_blink_short_circuit_witness :
    check_liveness true [open_frame, closed_frame, closed_frame, open_frame, open_frame] =
      (true, "Liveness verified (blink detected)") :=
  check_liveness_blink_short_circuit [] [open_frame, open_frame]
    open_frame closed_frame closed_frame
    (by rw [detect_blink_open_frame])
    (by rw [detect_blink_open_frame]; norm_num)
    (by rw [detect_blink_closed_frame])
    (by rw [detect_blink_closed_frame])
    (by simp)

/-- C3 counterexample: a 4-frame sequence does NOT always yield the
insufficient-frames failure "regardless of other state" — when the landmark
predictor failed to load, the degraded always-pass check runs first and the
same 4-frame input is confirmed live instead. -/
theorem check_liveness_four_frames_no_predictor :
    check_liveness false ([none, none, none, none] : List Frame) =
      (true, "Liveness check skipped (predictor not loaded)") ∧
    check_liveness false ([none, none, none, none] : List Frame) ≠
      (false, "Not enough frames for liveness check") := by
  constructor
  · rfl
  · intro h
    rw [show check_liveness false ([none, none, none, none] : List Frame) =
      (true, "Liveness check skipped (predictor not loaded)") from rfl] at h
    simp at h

/-- C3 amended: with the landmark predictor loaded, every frame sequence of
fewer than 5 frames fails with the insufficient-frames outcome regardless of
the frames' content; when the predictor is not loaded, the degraded always-pass
branch takes precedence over this check. -/
theorem check_liveness_insufficient_frames (frames : List Frame)
    (h : frames.length < 5) :
    check_liveness true frames = (false, "Not enough frames for liveness check") := by
  unfold check_liveness
  rw [if_neg (by simp : ¬(true = false)), if_pos h]

/-- C3 amended witness: a concrete 4-frame sequence with the predictor loaded. -/
theorem check_liveness_insufficient_frames_witness :
    check_liveness true ([none, none, none, none] : List Frame) =
      (false, "Not enough frames for liveness check") :=
  check_liveness_insufficient_frames [none, none, none, none] (by simp)

/-- C4: when the landmark predictor failed to load, `check_liveness` returns
the confirmed outcome with its diagnostic message for every frame sequence,
whatever its length or content. -/
theorem check_liveness_degraded_always_passes (frames : List Frame) :
    check_liveness false frames =
      (true, "Liveness check skipped (predictor not loaded)") := rfl

/-- C10: the eye-aspect-ratio computation is total, and in the degenerate case
where the horizontal landmark distance `‖p1−p4‖` is zero it returns `0` instead
of dividing by zero. -/
theorem eye_aspect_ratio_degenerate (eye_points : Fin 6 → ℝ × ℝ)
    (h : euclidean (eye_points 0) (eye_points 3) = 0) :
    eye_aspect_ratio eye_points = 0 := by
  simp only [eye_aspect_ratio, h]
  rw [if_neg (lt_irrefl 0)]

/-- C10 witness: all six landmarks at the origin give ratio `0`. -/
theorem eye_aspect_ratio_degenerate_witness :
    eye_aspect_ratio (fun _ => ((0 : ℝ), (0 : ℝ))) = 0 :=
  eye_aspect_ratio_degenerate _ (by simp [euclidean])

end FaceAuth
